import Mathlib

/-!
Verification of the dream-journal backend's core logic: the story
segmenter, the resilient API-call gateway, the image fan-out, the
story-generation parameter mapping, the dream query engine, the user
statistics aggregator, and the dream update path.  Text is modelled as
`List Char`; machine state that the original mutates (the relational
store) is passed explicitly.
-/

/-! ## Story Segmenter (`extractStorySegments` in server.js) -/

/-- Terminal sentence punctuation, the character class `[.!?]` of the
regex `/[^.!?]+[.!?]+/g`. -/
def isTerminal (c : Char) : Bool :=
  c = '.' || c = '!' || c = '?'

/-- One pass of the global regex matcher for `/[^.!?]+[.!?]+/g`,
written with explicit fuel (any fuel at least the input length gives
the fixpoint).  Each match is a nonempty run of non-terminal
characters followed by a nonempty run of terminal characters;
positions that cannot start a match (leading terminals) are skipped,
and a trailing run with no terminal punctuation yields no match. -/
def matchSentencesAux : Nat → List Char → List (List Char)
  | 0, _ => []
  | fuel + 1, cs =>
    if ((cs.dropWhile isTerminal).dropWhile
          (fun c => !isTerminal c)).takeWhile isTerminal = [] then []
    else
      ((cs.dropWhile isTerminal).takeWhile (fun c => !isTerminal c) ++
        ((cs.dropWhile isTerminal).dropWhile
          (fun c => !isTerminal c)).takeWhile isTerminal) ::
      matchSentencesAux fuel
        (((cs.dropWhile isTerminal).dropWhile
          (fun c => !isTerminal c)).dropWhile isTerminal)

/-- `story.match(/[^.!?]+[.!?]+/g)` (with `null` mapped to `[]`). -/
def matchSentences (cs : List Char) : List (List Char) :=
  matchSentencesAux cs.length cs

/-- `Array.prototype.join(' ')` on the matched sentences: the elements
with a single space character between consecutive ones. -/
def joinSpace : List (List Char) → List Char
  | [] => []
  | [x] => x
  | x :: y :: xs => x ++ ' ' :: joinSpace (y :: xs)

/-- `String.prototype.trim()`: strip leading and trailing whitespace. -/
def trimChars (cs : List Char) : List Char :=
  ((cs.dropWhile Char.isWhitespace).reverse.dropWhile Char.isWhitespace).reverse

/-- Result record of `extractStorySegments`. -/
structure StorySegments where
  beginning : List Char
  middle : List Char
  ending : List Char
deriving Repr, DecidableEq

/-- `extractStorySegments(story)` from server.js: fewer than 3 matched
sentences returns the whole story three times; otherwise the three
slices `[0,third)`, `[third, third*2)`, `[third*2, end)` of the
sentence list, each joined with a single space and trimmed. -/
def extractStorySegments (story : List Char) : StorySegments :=
  let sentences := matchSentences story
  let totalSentences := sentences.length
  if totalSentences < 3 then
    { beginning := story, middle := story, ending := story }
  else
    let third := totalSentences / 3
    { beginning := trimChars (joinSpace (sentences.take third))
      middle := trimChars (joinSpace ((sentences.drop third).take third))
      ending := trimChars (joinSpace (sentences.drop (third * 2))) }

example : matchSentences "A. B. C.".toList =
    ["A.".toList, " B.".toList, " C.".toList] := by decide
example : matchSentences "a.b.".toList = ["a.".toList, "b.".toList] := by decide
example : matchSentences "A. B".toList = ["A.".toList] := by decide
example : (extractStorySegments "A. B. C. D".toList).ending = "C.".toList := by
  decide

/-! ### Basic lemmas about the matcher -/

/-- Length of `dropWhile` never exceeds the input's length. -/
theorem length_dropWhile_le' (p : α → Bool) (l : List α) :
    (l.dropWhile p).length ≤ l.length := by
  induction l with
  | nil => simp
  | cons a l ih =>
    by_cases h : p a
    · rw [List.dropWhile_cons_of_pos h]
      exact Nat.le_succ_of_le ih
    · rw [List.dropWhile_cons_of_neg h]

/-- If `takeWhile` is nonempty then `dropWhile` strictly shrinks. -/
theorem length_dropWhile_lt (p : α → Bool) (l : List α)
    (h : l.takeWhile p ≠ []) : (l.dropWhile p).length < l.length := by
  cases l with
  | nil => simp at h
  | cons a l =>
    by_cases hp : p a
    · rw [List.dropWhile_cons_of_pos hp]
      exact Nat.lt_succ_of_le (length_dropWhile_le' p l)
    · rw [List.takeWhile_cons_of_neg hp] at h
      exact absurd rfl h

/-- The fuel argument is irrelevant once it covers the input length. -/
theorem matchSentencesAux_fuel (fuel fuel' : Nat) (cs : List Char)
    (h : cs.length ≤ fuel) (h' : cs.length ≤ fuel') :
    matchSentencesAux fuel cs = matchSentencesAux fuel' cs := by
  induction fuel using Nat.strong_induction_on generalizing fuel' cs with
  | _ fuel ih =>
    cases fuel with
    | zero =>
      have : cs = [] := List.length_eq_zero.mp (Nat.le_zero.mp h)
      subst this
      cases fuel' with
      | zero => rfl
      | succ f => simp [matchSentencesAux]
    | succ f =>
      cases fuel' with
      | zero =>
        have : cs = [] := List.length_eq_zero.mp (Nat.le_zero.mp h')
        subst this
        simp [matchSentencesAux]
      | succ f' =>
        simp only [matchSentencesAux]
        by_cases hb :
            ((cs.dropWhile isTerminal).dropWhile
              (fun c => !isTerminal c)).takeWhile isTerminal = []
        · simp [hb]
        · simp only [hb, if_neg, ite_false]
          have hlt : (((cs.dropWhile isTerminal).dropWhile
              (fun c => !isTerminal c)).dropWhile isTerminal).length <
              cs.length := by
            calc (((cs.dropWhile isTerminal).dropWhile
                (fun c => !isTerminal c)).dropWhile isTerminal).length
                < ((cs.dropWhile isTerminal).dropWhile
                    (fun c => !isTerminal c)).length :=
                  length_dropWhile_lt _ _ hb
              _ ≤ (cs.dropWhile isTerminal).length :=
                  length_dropWhile_le' _ _
              _ ≤ cs.length := length_dropWhile_le' _ _
          have := ih f (Nat.lt_succ_self f) f'
            (((cs.dropWhile isTerminal).dropWhile
              (fun c => !isTerminal c)).dropWhile isTerminal)
            (by omega) (by omega)
          rw [this]

/-- Head of a `dropWhile` residue falsifies the predicate. -/
theorem head?_dropWhile_neg (p : α → Bool) (l : List α) (c : α)
    (h : (l.dropWhile p).head? = some c) : p c = false := by
  induction l with
  | nil => simp at h
  | cons a t ih =>
    by_cases hp : p a
    · rw [List.dropWhile_cons_of_pos hp] at h
      exact ih h
    · rw [List.dropWhile_cons_of_neg hp] at h
      simp at h
      subst h
      exact Bool.eq_false_iff.mpr hp

/-- `dropWhile` keeps a list whose head falsifies the predicate. -/
theorem dropWhile_eq_self_of_head? (p : α → Bool) (l : List α) (c : α)
    (h1 : l.head? = some c) (h2 : p c = false) : l.dropWhile p = l := by
  cases l with
  | nil => rfl
  | cons a t =>
    simp at h1
    subst h1
    exact List.dropWhile_cons_of_neg (by simp [h2])

/-- `takeWhile` drops everything when the head falsifies the predicate. -/
theorem takeWhile_nil_of_head? (p : α → Bool) (l : List α) (c : α)
    (h1 : l.head? = some c) (h2 : p c = false) : l.takeWhile p = [] := by
  cases l with
  | nil => rfl
  | cons a t =>
    simp at h1
    subst h1
    exact List.takeWhile_cons_of_neg (by simp [h2])

/-- On a list where the predicate fails everywhere, `dropWhile` is the
identity. -/
theorem all_not_dropWhile (p : α → Bool) (l : List α)
    (h : ∀ c ∈ l, p c = false) : l.dropWhile p = l := by
  cases l with
  | nil => rfl
  | cons a t => exact List.dropWhile_cons_of_neg (by simp [h a (by simp)])

/-- `takeWhile` keeps the full length exactly when `dropWhile` empties. -/
theorem takeWhile_length_eq_iff (p : α → Bool) (l : List α) :
    (l.takeWhile p).length = l.length ↔ l.dropWhile p = [] := by
  have hs := congrArg List.length (List.takeWhile_append_dropWhile p l)
  rw [List.length_append] at hs
  constructor
  · intro h
    exact List.length_eq_zero.mp (by omega)
  · intro h
    rw [h] at hs
    simpa using hs

/-- Appending after a list whose `dropWhile` residue is nonempty. -/
theorem dropWhile_append_ne (p : α → Bool) (l l' : List α)
    (h : l.dropWhile p ≠ []) :
    (l ++ l').dropWhile p = l.dropWhile p ++ l' := by
  rw [List.dropWhile_append, if_neg]
  simp [h]

/-- Appending after a list that `dropWhile` consumes entirely. -/
theorem dropWhile_append_nil (p : α → Bool) (l l' : List α)
    (h : l.dropWhile p = []) :
    (l ++ l').dropWhile p = l'.dropWhile p := by
  rw [List.dropWhile_append, if_pos]
  simp [h]

/-- `takeWhile` over an append, when the first part is fully kept. -/
theorem takeWhile_append_full (p : α → Bool) (l l' : List α)
    (h : l.dropWhile p = []) :
    (l ++ l').takeWhile p = l ++ l'.takeWhile p := by
  rw [List.takeWhile_append, if_pos ((takeWhile_length_eq_iff p l).mpr h)]

/-- `takeWhile` over an append, when it stops inside the first part. -/
theorem takeWhile_append_part (p : α → Bool) (l l' : List α)
    (h : l.dropWhile p ≠ []) :
    (l ++ l').takeWhile p = l.takeWhile p := by
  rw [List.takeWhile_append, if_neg]
  intro hc
  exact h ((takeWhile_length_eq_iff p l).mp hc)

/-- The matcher finds nothing in an empty string. -/
theorem matchSentencesAux_nil (fuel : Nat) : matchSentencesAux fuel [] = [] := by
  cases fuel <;> simp [matchSentencesAux]

/-- The matcher finds nothing in text without terminal punctuation. -/
theorem matchSentencesAux_all_nonterm (fuel : Nat) (frag : List Char)
    (h : ∀ c ∈ frag, isTerminal c = false) :
    matchSentencesAux fuel frag = [] := by
  cases fuel with
  | zero => rfl
  | succ f =>
    have h1 : frag.dropWhile isTerminal = frag := all_not_dropWhile _ _ h
    have h2 : frag.dropWhile (fun c => !isTerminal c) = [] :=
      List.dropWhile_eq_nil_iff.mpr (by intro x hx; simp [h x hx])
    simp [matchSentencesAux, h1, h2]

/-- Appending terminal-punctuation-free text changes no match. -/
theorem matchSentencesAux_append_frag (fuel : Nat) :
    ∀ (s frag : List Char), (∀ c ∈ frag, isTerminal c = false) →
    s.length + frag.length ≤ fuel →
    matchSentencesAux fuel (s ++ frag) = matchSentencesAux fuel s := by
  induction fuel using Nat.strong_induction_on with
  | _ fuel ih =>
    intro s frag hfrag hlen
    cases fuel with
    | zero => rfl
    | succ f =>
      by_cases hds : s.dropWhile isTerminal = []
      · have h1 : (s ++ frag).dropWhile isTerminal = frag := by
          rw [dropWhile_append_nil _ _ _ hds, all_not_dropWhile _ _ hfrag]
        have h2 : frag.dropWhile (fun c => !isTerminal c) = [] :=
          List.dropWhile_eq_nil_iff.mpr (by intro x hx; simp [hfrag x hx])
        simp [matchSentencesAux, h1, h2, hds]
      · have h1 : (s ++ frag).dropWhile isTerminal =
            s.dropWhile isTerminal ++ frag := dropWhile_append_ne _ _ _ hds
        by_cases hdq :
            (s.dropWhile isTerminal).dropWhile (fun c => !isTerminal c) = []
        · have h2 : (s.dropWhile isTerminal ++ frag).dropWhile
              (fun c => !isTerminal c) = [] := by
            rw [dropWhile_append_nil _ _ _ hdq]
            exact List.dropWhile_eq_nil_iff.mpr
              (by intro x hx; simp [hfrag x hx])
          simp [matchSentencesAux, h1, h2, hdq]
        · have h2 : (s.dropWhile isTerminal ++ frag).dropWhile
              (fun c => !isTerminal c) =
              (s.dropWhile isTerminal).dropWhile (fun c => !isTerminal c)
                ++ frag := dropWhile_append_ne _ _ _ hdq
          have h3 : (s.dropWhile isTerminal ++ frag).takeWhile
              (fun c => !isTerminal c) =
              (s.dropWhile isTerminal).takeWhile (fun c => !isTerminal c) :=
            takeWhile_append_part _ _ _ hdq
          obtain ⟨c, t, hu⟩ : ∃ c t,
              (s.dropWhile isTerminal).dropWhile (fun c => !isTerminal c) =
                c :: t := by
            cases hu' : (s.dropWhile isTerminal).dropWhile
                (fun c => !isTerminal c) with
            | nil => exact absurd hu' hdq
            | cons c t => exact ⟨c, t, rfl⟩
          have hc : isTerminal c = true := by
            have := head?_dropWhile_neg (fun c => !isTerminal c)
              (s.dropWhile isTerminal) c (by rw [hu]; rfl)
            simpa using this
          by_cases hup :
              ((s.dropWhile isTerminal).dropWhile
                (fun c => !isTerminal c)).dropWhile isTerminal = []
          · have hall := List.dropWhile_eq_nil_iff.mp hup
            have h4 : ((s.dropWhile isTerminal).dropWhile
                (fun c => !isTerminal c) ++ frag).takeWhile isTerminal =
                (s.dropWhile isTerminal).dropWhile (fun c => !isTerminal c)
                  ++ frag.takeWhile isTerminal := takeWhile_append_full _ _ _ hup
            have h5 : frag.takeWhile isTerminal = [] := by
              cases hf : frag with
              | nil => rfl
              | cons d fs =>
                exact takeWhile_nil_of_head? _ _ d rfl
                  (hfrag d (by simp [hf]))
            have h6 : ((s.dropWhile isTerminal).dropWhile
                (fun c => !isTerminal c) ++ frag).dropWhile isTerminal =
                frag := by
              rw [dropWhile_append_nil _ _ _ hup, all_not_dropWhile _ _ hfrag]
            have h8 : ((s.dropWhile isTerminal).dropWhile
                (fun c => !isTerminal c)).takeWhile isTerminal =
                (s.dropWhile isTerminal).dropWhile (fun c => !isTerminal c) :=
              List.takeWhile_eq_self_iff.mpr hall
            have h9 : matchSentencesAux f frag = [] :=
              matchSentencesAux_all_nonterm f frag hfrag
            simp only [matchSentencesAux]
            rw [h1, h2, h3, h4, h5, h6, h8, h9]
            simp [hdq, hup, matchSentencesAux_nil]
          · have h4 : ((s.dropWhile isTerminal).dropWhile
                (fun c => !isTerminal c) ++ frag).takeWhile isTerminal =
                ((s.dropWhile isTerminal).dropWhile
                  (fun c => !isTerminal c)).takeWhile isTerminal :=
              takeWhile_append_part _ _ _ hup
            have h5 : ((s.dropWhile isTerminal).dropWhile
                (fun c => !isTerminal c) ++ frag).dropWhile isTerminal =
                ((s.dropWhile isTerminal).dropWhile
                  (fun c => !isTerminal c)).dropWhile isTerminal ++ frag :=
              dropWhile_append_ne _ _ _ hup
            have hbne : ((s.dropWhile isTerminal).dropWhile
                (fun c => !isTerminal c)).takeWhile isTerminal ≠ [] := by
              rw [hu, List.takeWhile_cons_of_pos hc]
              simp
            have hrec : matchSentencesAux f
                (((s.dropWhile isTerminal).dropWhile
                  (fun c => !isTerminal c)).dropWhile isTerminal ++ frag) =
                matchSentencesAux f
                (((s.dropWhile isTerminal).dropWhile
                  (fun c => !isTerminal c)).dropWhile isTerminal) := by
              apply ih f (Nat.lt_succ_self f) _ frag hfrag
              have l1 := length_dropWhile_lt isTerminal
                ((s.dropWhile isTerminal).dropWhile (fun c => !isTerminal c))
                hbne
              have l2 : ((s.dropWhile isTerminal).dropWhile
                  (fun c => !isTerminal c)).length ≤
                  (s.dropWhile isTerminal).length := length_dropWhile_le' _ _
              have l3 : (s.dropWhile isTerminal).length ≤ s.length :=
                length_dropWhile_le' _ _
              omega
            simp only [matchSentencesAux]
            rw [h1, h2, h3, h4, h5, hrec]

/-- Appending terminal-punctuation-free text to a story changes its
matched sentence list not at all: the trailing fragment is dropped. -/
theorem matchSentences_append_frag (s frag : List Char)
    (hfrag : ∀ c ∈ frag, isTerminal c = false) :
    matchSentences (s ++ frag) = matchSentences s := by
  unfold matchSentences
  rw [matchSentencesAux_append_frag (s ++ frag).length s frag hfrag (by simp)]
  exact matchSentencesAux_fuel _ _ s (by simp) (le_refl _)

/-- A well-formed sentence token: a nonempty run of non-terminal
characters followed by a nonempty run of terminal characters. -/
def wfTok (t : List Char) : Prop :=
  ∃ a b, t = a ++ b ∧ a ≠ [] ∧ b ≠ [] ∧
    (∀ c ∈ a, isTerminal c = false) ∧ (∀ c ∈ b, isTerminal c = true)

/-- Every token the matcher produces is well-formed. -/
theorem matchSentencesAux_wf (fuel : Nat) :
    ∀ (cs : List Char) (t : List Char),
    t ∈ matchSentencesAux fuel cs → wfTok t := by
  induction fuel with
  | zero => intro cs t h; simp [matchSentencesAux] at h
  | succ f ih =>
    intro cs t h
    simp only [matchSentencesAux] at h
    by_cases hb :
        ((cs.dropWhile isTerminal).dropWhile
          (fun c => !isTerminal c)).takeWhile isTerminal = []
    · simp [hb] at h
    · rw [if_neg hb] at h
      rcases List.mem_cons.mp h with heq | hmem
      · refine ⟨(cs.dropWhile isTerminal).takeWhile (fun c => !isTerminal c),
          ((cs.dropWhile isTerminal).dropWhile
            (fun c => !isTerminal c)).takeWhile isTerminal, heq, ?_, hb, ?_, ?_⟩
        · intro ha
          apply hb
          have hds : cs.dropWhile isTerminal ≠ [] := by
            intro hnil
            apply hb
            rw [hnil]
            rfl
          obtain ⟨c0, t0, hc0⟩ : ∃ c0 t0, cs.dropWhile isTerminal = c0 :: t0 := by
            cases hd : cs.dropWhile isTerminal with
            | nil => exact absurd hd hds
            | cons c0 t0 => exact ⟨c0, t0, rfl⟩
          have hq : isTerminal c0 = false :=
            head?_dropWhile_neg isTerminal cs c0 (by rw [hc0]; rfl)
          rw [hc0, List.takeWhile_cons_of_pos (by simp [hq])] at ha
          simp at ha
        · intro c hc
          have := List.mem_takeWhile_imp hc
          simpa using this
        · intro c hc
          exact List.mem_takeWhile_imp hc
      · exact ih _ t hmem

/-- The tail part of a space-join: empty for no further tokens, else a
space followed by the join of the rest. -/
def tailJoin : List (List Char) → List Char
  | [] => []
  | t :: ts => ' ' :: joinSpace (t :: ts)

theorem joinSpace_cons (t : List Char) (ts : List (List Char)) :
    joinSpace (t :: ts) = t ++ tailJoin ts := by
  cases ts with
  | nil => simp [joinSpace, tailJoin]
  | cons u us => simp [joinSpace, tailJoin]

/-- Core counting argument: a leading run of non-terminal characters,
a run of terminal characters, then the space-joined remaining tokens
produce exactly `1 +` that many further matches. -/
theorem matchSentencesAux_count (fuel : Nat) :
    ∀ (ts : List (List Char)) (w b : List Char),
    w ≠ [] → (∀ c ∈ w, isTerminal c = false) →
    b ≠ [] → (∀ c ∈ b, isTerminal c = true) →
    (∀ t ∈ ts, wfTok t) →
    (w ++ (b ++ tailJoin ts)).length ≤ fuel →
    (matchSentencesAux fuel (w ++ (b ++ tailJoin ts))).length = 1 + ts.length := by
  induction fuel using Nat.strong_induction_on with
  | _ fuel ih =>
    intro ts w b hw hwall hb hball hwf hlen
    cases fuel with
    | zero =>
      exfalso
      have hpos : 0 < w.length := List.length_pos.mpr hw
      rw [List.length_append] at hlen
      omega
    | succ f =>
      obtain ⟨cb, tb, hbc⟩ : ∃ cb tb, b = cb :: tb := by
        cases hbc : b with
        | nil => exact absurd hbc hb
        | cons cb tb => exact ⟨cb, tb, rfl⟩
      have hcb : isTerminal cb = true := hball cb (by simp [hbc])
      have h1 : (w ++ (b ++ tailJoin ts)).dropWhile isTerminal =
          w ++ (b ++ tailJoin ts) := by
        rw [dropWhile_append_ne _ _ _
          (by rw [all_not_dropWhile _ _ hwall]; exact hw),
          all_not_dropWhile _ _ hwall]
      have hwq : w.dropWhile (fun c => !isTerminal c) = [] :=
        List.dropWhile_eq_nil_iff.mpr (by intro x hx; simp [hwall x hx])
      have h2 : (w ++ (b ++ tailJoin ts)).takeWhile (fun c => !isTerminal c) =
          w := by
        rw [takeWhile_append_full _ _ _ hwq,
          takeWhile_nil_of_head? _ _ cb (by rw [hbc]; rfl) (by simp [hcb]),
          List.append_nil]
      have h3 : (w ++ (b ++ tailJoin ts)).dropWhile (fun c => !isTerminal c) =
          b ++ tailJoin ts := by
        rw [dropWhile_append_nil _ _ _ hwq,
          dropWhile_eq_self_of_head? _ _ cb (by rw [hbc]; rfl) (by simp [hcb])]
      have hbp : b.dropWhile isTerminal = [] :=
        List.dropWhile_eq_nil_iff.mpr hball
      have htail : tailJoin ts = [] ∨ ∃ r, tailJoin ts = ' ' :: r := by
        cases ts with
        | nil => exact Or.inl rfl
        | cons t ts' => exact Or.inr ⟨joinSpace (t :: ts'), rfl⟩
      have hsp : isTerminal ' ' = false := by decide
      have h4 : (b ++ tailJoin ts).takeWhile isTerminal = b := by
        rw [takeWhile_append_full _ _ _ hbp]
        rcases htail with h | ⟨r, h⟩
        · rw [h]; simp
        · rw [h, takeWhile_nil_of_head? isTerminal (' ' :: r) ' ' rfl hsp,
            List.append_nil]
      have h5 : (b ++ tailJoin ts).dropWhile isTerminal = tailJoin ts := by
        rw [dropWhile_append_nil _ _ _ hbp]
        rcases htail with h | ⟨r, h⟩
        · rw [h]; rfl
        · rw [h, dropWhile_eq_self_of_head? isTerminal (' ' :: r) ' ' rfl hsp]
      have hbne' : b ≠ [] := hb
      simp only [matchSentencesAux]
      rw [h1, h3, h4, h2, h5, if_neg hbne']
      cases ts with
      | nil =>
        simp [tailJoin, matchSentencesAux_nil]
      | cons t ts' =>
        obtain ⟨a, bb, hteq, hane, hbbne, haall, hbball⟩ :=
          hwf t (by simp)
        have hrw : tailJoin (t :: ts') =
            (' ' :: a) ++ (bb ++ tailJoin ts') := by
          show ' ' :: joinSpace (t :: ts') = (' ' :: a) ++ (bb ++ tailJoin ts')
          rw [joinSpace_cons, hteq]
          simp
        have hlen' : ((' ' :: a) ++ (bb ++ tailJoin ts')).length ≤ f := by
          rw [← hrw]
          have e := congrArg List.length (hrw)
          have hwpos : 0 < w.length := List.length_pos.mpr hw
          have hbpos : 0 < b.length := List.length_pos.mpr hb
          simp only [List.length_append] at hlen ⊢
          omega
        have := ih f (Nat.lt_succ_self f) ts' (' ' :: a) bb
          (by simp)
          (by
            intro c hc
            rcases List.mem_cons.mp hc with h | h
            · subst h; exact hsp
            · exact haall c h)
          hbbne hbball
          (by intro t' ht'; exact hwf t' (by simp [ht']))
          hlen'
        rw [hrw]
        simp only [List.length_cons, this]
        omega

/-- The last element, when present, is a member. -/
theorem mem_of_getLast?' (l : List α) (d : α) (h : l.getLast? = some d) :
    d ∈ l := by
  induction l with
  | nil => simp at h
  | cons a t ih =>
    cases t with
    | nil =>
      rw [List.getLast?_singleton] at h
      simp at h
      simp [h]
    | cons b t' =>
      rw [List.getLast?_cons_cons] at h
      exact List.mem_cons_of_mem a (ih h)

/-- Prepending to a nonempty list keeps its last element. -/
theorem getLast?_cons_ne (a : α) (t : List α) (h : t ≠ []) :
    (a :: t).getLast? = t.getLast? := by
  cases t with
  | nil => exact absurd rfl h
  | cons b t' => exact List.getLast?_cons_cons

/-- `dropWhile` keeps the last element when its residue is nonempty. -/
theorem getLast?_dropWhile_ne (p : α → Bool) (l : List α)
    (h : l.dropWhile p ≠ []) : (l.dropWhile p).getLast? = l.getLast? := by
  induction l with
  | nil => simp at h
  | cons a t ih =>
    by_cases hp : p a
    · rw [List.dropWhile_cons_of_pos hp] at h ⊢
      rw [ih h]
      have htne : t ≠ [] := by
        intro ht
        rw [ht] at h
        simp at h
      exact (getLast?_cons_ne a t htne).symm
    · rw [List.dropWhile_cons_of_neg hp]

/-- Terminal punctuation characters are not whitespace. -/
theorem terminal_not_ws (c : Char) (h : isTerminal c = true) :
    c.isWhitespace = false := by
  have h' : c = '.' ∨ c = '!' ∨ c = '?' := by
    simpa [isTerminal, or_assoc] using h
  rcases h' with h' | h' | h' <;> subst h' <;> decide

/-- A space-join of well-formed tokens ends in terminal punctuation. -/
theorem getLast?_joinSpace_terminal :
    ∀ ts : List (List Char), ts ≠ [] → (∀ t ∈ ts, wfTok t) →
    ∃ d, (joinSpace ts).getLast? = some d ∧ isTerminal d = true := by
  intro ts
  induction ts with
  | nil => intro h; exact absurd rfl h
  | cons t ts ih =>
    intro _ hwf
    cases ts with
    | nil =>
      obtain ⟨a, bb, hteq, _, hbbne, _, hbball⟩ := hwf t (by simp)
      obtain ⟨d, hd⟩ : ∃ d, bb.getLast? = some d := by
        cases hbl : bb.getLast? with
        | none => exact absurd (List.getLast?_eq_none_iff.mp hbl) hbbne
        | some d => exact ⟨d, rfl⟩
      refine ⟨d, ?_, hbball d (mem_of_getLast?' bb d hd)⟩
      show (joinSpace [t]).getLast? = some d
      simp only [joinSpace]
      rw [hteq, List.getLast?_append, hd, Option.or_some]
    | cons u us =>
      obtain ⟨d, hd, hdt⟩ := ih (by simp) (by
        intro t' ht'
        exact hwf t' (List.mem_cons_of_mem t ht'))
      refine ⟨d, ?_, hdt⟩
      show (joinSpace (t :: u :: us)).getLast? = some d
      simp only [joinSpace]
      have hjne : joinSpace (u :: us) ≠ [] := by
        intro hj
        rw [hj] at hd
        simp at hd
      rw [List.getLast?_append, getLast?_cons_ne ' ' _ hjne, hd, Option.or_some]

/-- When the text ends in a non-whitespace character, `trim` only
strips from the front. -/
theorem trim_of_last_nonws (l : List Char) (cl : Char)
    (h1 : l.getLast? = some cl) (h2 : cl.isWhitespace = false) :
    trimChars l = l.dropWhile Char.isWhitespace := by
  have hm : l.dropWhile Char.isWhitespace ≠ [] := by
    intro h
    have hcl := List.dropWhile_eq_nil_iff.mp h cl (mem_of_getLast?' l cl h1)
    have hcon := hcl.symm.trans h2
    simp at hcon
  have hlast2 : (l.dropWhile Char.isWhitespace).getLast? = some cl := by
    rw [getLast?_dropWhile_ne _ _ hm]
    exact h1
  have hrev : (l.dropWhile Char.isWhitespace).reverse.head? = some cl := by
    rw [List.head?_reverse]
    exact hlast2
  unfold trimChars
  rw [dropWhile_eq_self_of_head? _ _ cl hrev h2, List.reverse_reverse]

/-- Re-tokenizing a trimmed space-join of well-formed tokens (each
containing at least one non-whitespace, non-terminal character)
recovers exactly the token count. -/
theorem matchSentences_join_count (toks : List (List Char))
    (hne : toks ≠ [])
    (hwf : ∀ t ∈ toks, wfTok t)
    (hclean : ∀ t ∈ toks, ∃ c ∈ t, isTerminal c = false ∧
      c.isWhitespace = false) :
    (matchSentences (trimChars (joinSpace toks))).length = toks.length := by
  cases toks with
  | nil => exact absurd rfl hne
  | cons t ts =>
    obtain ⟨a, bb, hteq, hane, hbbne, haall, hbball⟩ := hwf t (by simp)
    have hjoin : joinSpace (t :: ts) = a ++ (bb ++ tailJoin ts) := by
      rw [joinSpace_cons, hteq, List.append_assoc]
    obtain ⟨d, hd, hdt⟩ := getLast?_joinSpace_terminal (t :: ts) (by simp) hwf
    have htrim : trimChars (joinSpace (t :: ts)) =
        (joinSpace (t :: ts)).dropWhile Char.isWhitespace :=
      trim_of_last_nonws _ d hd (terminal_not_ws d hdt)
    obtain ⟨c, hcmem, hcnt, hcnw⟩ := hclean t (by simp)
    have hca : c ∈ a := by
      rw [hteq] at hcmem
      rcases List.mem_append.mp hcmem with h | h
      · exact h
      · exact absurd (hbball c h) (by simp [hcnt])
    have hadw : a.dropWhile Char.isWhitespace ≠ [] := by
      intro h
      have hws := List.dropWhile_eq_nil_iff.mp h c hca
      have hcon := hws.symm.trans hcnw
      simp at hcon
    have hdrop : (joinSpace (t :: ts)).dropWhile Char.isWhitespace =
        (a.dropWhile Char.isWhitespace) ++ (bb ++ tailJoin ts) := by
      rw [hjoin]
      exact dropWhile_append_ne _ _ _ hadw
    have hall' : ∀ c' ∈ a.dropWhile Char.isWhitespace, isTerminal c' = false := by
      intro c' hc'
      exact haall c' (List.Sublist.mem hc' (List.dropWhile_sublist _))
    rw [htrim, hdrop]
    unfold matchSentences
    rw [matchSentencesAux_count _ ts (a.dropWhile Char.isWhitespace) bb hadw
      hall' hbbne hbball
      (by intro t' ht'; exact hwf t' (List.mem_cons_of_mem t ht'))
      (le_refl _)]
    simp [Nat.add_comm]

/-! ## Resilient Call Gateway (`makeAPICall` in server.js) -/

/-- Final outcome of a gateway call: the resolved 2xx status, or the
thrown error carrying the last observed status. -/
inductive GatewayResult where
  | success (status : Nat)
  | failure (status : Nat)
deriving Repr, DecidableEq

/-- Observable outcome of one `makeAPICall` invocation: the final
result, the number of outbound calls made, and the sequence of backoff
delays slept (in milliseconds, in order). -/
structure GatewayRun where
  result : GatewayResult
  calls : Nat
  delays : List Nat
deriving Repr, DecidableEq

/-- `response.ok`: HTTP status in the 2xx range. -/
def responseOk (s : Nat) : Bool :=
  decide (200 ≤ s) && decide (s < 300)

/-- `Math.min(1000 * Math.pow(2, i), 10000)`. -/
def backoffDelay (i : Nat) : Nat :=
  min (1000 * 2 ^ i) 10000

/-- The `for (let i = 0; i < retries; i++)` loop of `makeAPICall`,
modelled over the statuses the provider returns (`responses i` is the
status of the i-th outbound call; network-level exceptions are not
modelled).  The gas argument is `retries - i` and only bounds the
recursion.  Mirrors the source: a 2xx returns the payload; a 4xx
throws — but that `throw` sits inside the `try`, so the enclosing
`catch` sleeps `min(1000*2^i, 10000)` and retries it unless this was
the last attempt; a 5xx/429 with attempts remaining sleeps the same
delay and retries; any other non-2xx throws and is likewise caught and
retried unless final. -/
def makeAPICallLoop (responses : Nat → Nat) (retries : Nat) :
    Nat → Nat → GatewayRun
  | 0, _ => ⟨.failure 0, 0, []⟩
  | gas + 1, i =>
    if responseOk (responses i) then ⟨.success (responses i), 1, []⟩
    else if 400 ≤ responses i ∧ responses i < 500 then
      if i + 1 = retries then ⟨.failure (responses i), 1, []⟩
      else
        let r := makeAPICallLoop responses retries gas (i + 1)
        ⟨r.result, r.calls + 1, backoffDelay i :: r.delays⟩
    else if i + 1 < retries ∧ (500 ≤ responses i ∨ responses i = 429) then
      let r := makeAPICallLoop responses retries gas (i + 1)
      ⟨r.result, r.calls + 1, backoffDelay i :: r.delays⟩
    else if i + 1 = retries then ⟨.failure (responses i), 1, []⟩
    else
      let r := makeAPICallLoop responses retries gas (i + 1)
      ⟨r.result, r.calls + 1, backoffDelay i :: r.delays⟩

/-- `makeAPICall(url, options, retries)`. -/
def makeAPICall (responses : Nat → Nat) (retries : Nat) : GatewayRun :=
  makeAPICallLoop responses retries retries 0

example : makeAPICall (fun _ => 200) 3 = ⟨.success 200, 1, []⟩ := by decide
example : makeAPICall (fun _ => 404) 3 = ⟨.failure 404, 3, [1000, 2000]⟩ := by
  decide
example : makeAPICall (fun i => if i = 0 then 404 else 200) 3 =
    ⟨.success 200, 2, [1000]⟩ := by decide
example : makeAPICall (fun i => if i < 2 then 500 else 200) 3 =
    ⟨.success 200, 3, [1000, 2000]⟩ := by decide

/-! ## Image generation endpoint (`POST /api/generate-images`) -/

/-- One entry of the `scenes` array. -/
structure Scene where
  name : List Char
  description : List Char
  prompt : List Char
deriving Repr, DecidableEq

/-- The `stylePrompts` lookup object. -/
def stylePrompts (tone : List Char) : Option (List Char) :=
  if tone = "whimsical".toList then
    some ("whimsical fairy tale illustration, bright vibrant colors, Disney-style animation, magical and playful, soft lighting").toList
  else if tone = "mystical".toList then
    some ("mystical fairy tale artwork, ethereal lighting, fantasy art style, magical realism, dreamy atmosphere").toList
  else if tone = "adventurous".toList then
    some ("epic fantasy illustration, adventure book art style, dynamic composition, heroic and bold").toList
  else if tone = "gentle".toList then
    some ("soft watercolor fairy tale illustration, pastel colors, gentle and peaceful, children\x27s book style").toList
  else if tone = "mysterious".toList then
    some ("gothic fairy tale illustration, dramatic shadows, mysterious atmosphere, dark fantasy art").toList
  else if tone = "comedy".toList then
    some ("whimsical spooky comedy illustration, Tim Burton style, quirky characters, humorous dark fantasy").toList
  else none

/-- `stylePrompts[tone] || stylePrompts.whimsical`. -/
def baseStyle (tone : List Char) : List Char :=
  (stylePrompts tone).getD
    ("whimsical fairy tale illustration, bright vibrant colors, Disney-style animation, magical and playful, soft lighting").toList

/-- The shared style suffix appended to every scene prompt. -/
def commonStyle (tone : List Char) : List Char :=
  baseStyle tone ++
    (", high quality, detailed artwork, storybook illustration, beautiful composition, no text, no words, no letters, no writing, text-free illustration").toList

/-- The `scenes` array built in the endpoint body. -/
def buildScenes (story tone : List Char) : List Scene :=
  [ { name := "Scene 1".toList
      description := "Beginning of the story".toList
      prompt := "Illustrate this scene: ".toList ++
        (extractStorySegments story).beginning ++
        " | Make it feel like the start of a fairy tale: introduce the main character(s) and setting clearly. | Style: ".toList ++
        commonStyle tone ++
        " | Composition: wide establishing shot, cinematic lighting, detailed storybook artwork. IMPORTANT: Do not include any text, words, letters, or writing in the image.".toList }
  , { name := "Scene 2".toList
      description := "Middle of the story".toList
      prompt := "Illustrate this scene: ".toList ++
        (extractStorySegments story).middle ++
        " | Focus on the main action or conflict—show drama, movement, and emotions. | Style: ".toList ++
        commonStyle tone ++
        " | Composition: mid-shot or dynamic angle, detailed character expressions, high-quality fairy tale illustration. IMPORTANT: Do not include any text, words, letters, or writing in the image.".toList }
  , { name := "Scene 3".toList
      description := "End of the story".toList
      prompt := "Illustrate this scene: ".toList ++
        (extractStorySegments story).ending ++
        " | Show the resolution or magical transformation—make it feel satisfying and final. | Style: ".toList ++
        commonStyle tone ++
        ", composition: full scene, warm and complete storybook atmosphere, polished illustration. IMPORTANT: Do not include any text, words, letters, or writing in the image.".toList } ]

/-- One element of the joint `images` result.  A success carries the
provider URL and the exact prompt; a failed scene carries `url: null`,
no prompt, and `error: true` (the absent JSON fields are modelled as
`none` / `false`). -/
structure SceneResult where
  url : Option (List Char)
  scene : List Char
  description : List Char
  prompt : Option (List Char)
  error : Bool
deriving Repr, DecidableEq

/-- One arm of the fan-out: the provider call for scene `i` either
yields an image URL or fails; the failure is caught locally and turned
into an error-flagged entry, never propagated. -/
def generateSceneImage (outcome : Nat → Option (List Char)) (i : Nat)
    (scene : Scene) : SceneResult :=
  match outcome i with
  | some u => ⟨some u, scene.name, scene.description, some scene.prompt, false⟩
  | none => ⟨none, scene.name, scene.description, none, true⟩

/-- `Promise.all(scenes.map(...))`: the three scene calls are issued
independently (`outcome i` is the result of the i-th provider call)
and all three settled results are collected. -/
def generateImages (story tone : List Char)
    (outcome : Nat → Option (List Char)) : List SceneResult :=
  match buildScenes story tone with
  | [s1, s2, s3] =>
      [generateSceneImage outcome 0 s1,
       generateSceneImage outcome 1 s2,
       generateSceneImage outcome 2 s3]
  | other => other.map (fun s => generateSceneImage outcome 0 s)

/-! ## Story generation endpoint (`POST /api/generate-story`) -/

/-- `tonePrompts.whimsical`. -/
def tonePromptWhimsical : List Char :=
  ("Transform this dream into a whimsical, playful fairy tale with magical creatures, rainbow colors, and joyful adventures. Make it feel like a Disney story with wonder and delight.").toList

/-- The `tonePrompts` lookup object. -/
def tonePrompts (tone : List Char) : Option (List Char) :=
  if tone = "whimsical".toList then some tonePromptWhimsical
  else if tone = "mystical".toList then
    some ("Transform this dream into a mystical, magical fairy tale with ancient wisdom, ethereal beings, and spiritual undertones. Include elements of wonder, mystery, and enlightenment.").toList
  else if tone = "adventurous".toList then
    some ("Transform this dream into an adventurous, bold fairy tale with brave heroes, epic quests, and thrilling challenges. Make it exciting and action-packed with courage and triumph.").toList
  else if tone = "gentle".toList then
    some ("Transform this dream into a gentle, soothing fairy tale with kind characters, peaceful settings, and heartwarming moments. Make it comforting, tender, and full of love.").toList
  else if tone = "mysterious".toList then
    some ("Transform this dream into a mysterious, dark fairy tale with shadows, secrets, and intriguing plot twists. Keep it atmospheric and engaging but not too scary.").toList
  else if tone = "comedy".toList then
    some ("Transform this dream into a mysterious, dark fairy tale with sarcastic humor, dramatic secrets, and absurd plot twists. Keep it atmospheric and intriguing, but make it funny, more spooky comedy than actual horror.").toList
  else none

/-- `tonePrompts[tone] || tonePrompts.whimsical`. -/
def toneInstruction (tone : List Char) : List Char :=
  (tonePrompts tone).getD tonePromptWhimsical

/-- The `lengthPrompts` lookup object. -/
def lengthPrompts (len : List Char) : Option (List Char) :=
  if len = "short".toList then some "150-250 words".toList
  else if len = "medium".toList then some "300-500 words".toList
  else if len = "long".toList then some "600-800 words".toList
  else none

/-- `lengthPrompts[length] || lengthPrompts.medium`. -/
def lengthInstruction (len : List Char) : List Char :=
  (lengthPrompts len).getD "300-500 words".toList

/-- `max_tokens: length === 'long' ? 1200 : (length === 'short' ? 400 : 800)`. -/
def maxTokensFor (len : List Char) : Nat :=
  if len = "long".toList then 1200
  else if len = "short".toList then 400
  else 800

/-- The provider request the story endpoint issues: the assembled
system instruction and the token budget. -/
structure StoryRequest where
  systemPrompt : List Char
  userPrompt : List Char
  maxTokens : Nat
deriving Repr, DecidableEq

/-- `POST /api/generate-story` request construction:
`const { dreamText, tone = 'whimsical', length = 'medium' } = req.body`
(absent selectors default), the system prompt template, and the token
budget. -/
def generateStoryRequest (dreamText : List Char)
    (toneOpt lenOpt : Option (List Char)) : StoryRequest :=
  let tone := toneOpt.getD "whimsical".toList
  let len := lenOpt.getD "medium".toList
  { systemPrompt :=
      ("You are a master storyteller who specializes in transforming dreams into captivating fairy tales. ").toList ++
      toneInstruction tone ++
      ("\n\nGuidelines:\n- Create a complete, well-structured fairy tale with a clear beginning, middle, and end\n- Length: ").toList ++
      lengthInstruction len ++
      ("\n- Include vivid descriptions and engaging dialogue\n- Make it appropriate for all ages\n- Incorporate classic fairy tale elements (magic, transformation, resolution)\n- Use the dream as core inspiration but expand creatively\n- Structure the story with clear scene transitions that can be illustrated").toList
    userPrompt :=
      ("Transform this dream into a fairy tale: \"").toList ++ dreamText ++
        ("\"").toList
    maxTokens := maxTokensFor len }

/-! ## Dream query engine (`getDreamsByUser` in services/database.js) -/

/-- The `Dream` row of the relational schema. -/
structure Dream where
  id : String
  userId : String
  title : Option String
  dreamText : String
  date : Int
  story : Option String
  storyTone : Option String
  storyLength : Option String
  hasAudio : Bool
  audioUrl : Option String
  audioDuration : Option Int
  isPrivate : Bool
  isFavorite : Bool
  tags : List String
  mood : Option String
  lucidity : Option Int
  createdAt : Int
  updatedAt : Int
deriving Repr, DecidableEq

/-- Options accepted by `getDreamsByUser`, with the route's defaults. -/
structure QueryOptions where
  skip : Nat
  take : Nat
  orderBy : String
  order : String
  search : Option String
  tags : Option (List String)
  startDate : Option Int
  endDate : Option Int
  mood : Option String
  favoritesOnly : Bool
deriving Repr, DecidableEq

/-- Does a character list start with the other? -/
def startsWithChars : List Char → List Char → Bool
  | [], _ => true
  | _ :: _, [] => false
  | c :: cs, d :: ds => c == d && startsWithChars cs ds

/-- Substring test over character lists. -/
def hasSubstring : List Char → List Char → Bool
  | needle, [] => startsWithChars needle []
  | needle, d :: ds => startsWithChars needle (d :: ds) || hasSubstring needle ds

/-- `contains` with `mode: 'insensitive'`: case-insensitive substring. -/
def containsCI (hay needle : String) : Bool :=
  hasSubstring (needle.toList.map Char.toLower) (hay.toList.map Char.toLower)

/-- The `where` clause of `getDreamsByUser` as a predicate on rows:
owner scoping, optional favourite filter, optional case-insensitive
text search over dreamText/story/title, tag intersection (`hasSome`),
inclusive date bounds, and mood equality.  As in the source, an absent
(or JS-falsy, i.e. empty) selector contributes no condition. -/
def dreamMatches (userId : String) (opts : QueryOptions) (d : Dream) : Bool :=
  d.userId == userId &&
  (!opts.favoritesOnly || d.isFavorite) &&
  (match opts.search with
   | none => true
   | some q =>
     if q.isEmpty then true
     else
       containsCI d.dreamText q ||
       (match d.story with | some st => containsCI st q | none => false) ||
       (match d.title with | some t => containsCI t q | none => false)) &&
  (match opts.tags with
   | none => true
   | some ts => if ts.isEmpty then true
                else d.tags.any (fun t => ts.contains t)) &&
  (match opts.startDate with
   | none => true
   | some v => decide (v ≤ d.date)) &&
  (match opts.endDate with
   | none => true
   | some v => decide (d.date ≤ v)) &&
  (match opts.mood with
   | none => true
   | some m => if m.isEmpty then true else d.mood == some m)

/-- The scalar columns of the `Dream` model: the names Prisma accepts
in `orderBy`.  Any other name raises a query validation error. -/
def validDreamOrderFields : List String :=
  ["id", "userId", "title", "dreamText", "date", "story", "storyTone",
   "storyLength", "hasAudio", "audioUrl", "audioDuration", "isPrivate",
   "isFavorite", "tags", "mood", "lucidity", "createdAt", "updatedAt"]

/-- Comparison of optional values: nulls first, then the payloads. -/
def leOptBy (le : α → α → Bool) : Option α → Option α → Bool
  | none, _ => true
  | some _, none => false
  | some x, some y => le x y

/-- Ascending comparison for one sortable column.  The exact collation
of the backing store is abstracted; any total deterministic order per
column is faithful to what the claims observe. -/
def dreamLe (field : String) (a b : Dream) : Bool :=
  if field = "id" then a.id ≤ b.id
  else if field = "userId" then a.userId ≤ b.userId
  else if field = "title" then leOptBy (fun x y : String => x ≤ y) a.title b.title
  else if field = "dreamText" then a.dreamText ≤ b.dreamText
  else if field = "date" then a.date ≤ b.date
  else if field = "story" then leOptBy (fun x y : String => x ≤ y) a.story b.story
  else if field = "storyTone" then
    leOptBy (fun x y : String => x ≤ y) a.storyTone b.storyTone
  else if field = "storyLength" then
    leOptBy (fun x y : String => x ≤ y) a.storyLength b.storyLength
  else if field = "hasAudio" then !a.hasAudio || b.hasAudio
  else if field = "audioUrl" then
    leOptBy (fun x y : String => x ≤ y) a.audioUrl b.audioUrl
  else if field = "audioDuration" then
    leOptBy (fun x y : Int => decide (x ≤ y)) a.audioDuration b.audioDuration
  else if field = "isPrivate" then !a.isPrivate || b.isPrivate
  else if field = "isFavorite" then !a.isFavorite || b.isFavorite
  else if field = "tags" then a.tags.length ≤ b.tags.length
  else if field = "mood" then leOptBy (fun x y : String => x ≤ y) a.mood b.mood
  else if field = "lucidity" then
    leOptBy (fun x y : Int => decide (x ≤ y)) a.lucidity b.lucidity
  else if field = "createdAt" then a.createdAt ≤ b.createdAt
  else a.updatedAt ≤ b.updatedAt

/-- Insertion into a sorted list. -/
def insertBy (le : α → α → Bool) (x : α) : List α → List α
  | [] => [x]
  | y :: ys => if le x y then x :: y :: ys else y :: insertBy le x ys

/-- Insertion sort (a deterministic model of the store's ORDER BY). -/
def sortedBy (le : α → α → Bool) : List α → List α
  | [] => []
  | x :: xs => insertBy le x (sortedBy le xs)

theorem mem_insertBy (le : α → α → Bool) (x a : α) (l : List α) :
    a ∈ insertBy le x l ↔ a = x ∨ a ∈ l := by
  induction l with
  | nil => simp [insertBy]
  | cons y ys ih =>
    by_cases h : le x y
    · simp [insertBy, h]
    · simp [insertBy, h, ih]
      tauto

theorem mem_sortedBy (le : α → α → Bool) (a : α) (l : List α) :
    a ∈ sortedBy le l ↔ a ∈ l := by
  induction l with
  | nil => simp [sortedBy]
  | cons x xs ih => simp [sortedBy, mem_insertBy, ih]

/-- Result shape of `getDreamsByUser`. -/
structure QueryResult where
  dreams : List Dream
  total : Nat
  hasMore : Bool
deriving Repr, DecidableEq

/-- Outcome of a query: the result, or a thrown store error. -/
inductive QueryOutcome where
  | ok (r : QueryResult)
  | storeError (msg : String)
deriving Repr, DecidableEq

/-- `getDreamsByUser(userId, options)`: builds the `where` clause,
fetches the page slice (`orderBy: { [orderBy]: order }`, `skip`,
`take`) and the independent matching count, and returns
`hasMore = skip + take < total`.  The caller-supplied `orderBy` field
name is passed through unguarded; a name that is not a column of the
model (or an order other than asc/desc) makes the store's query
builder throw a validation error. -/
def getDreamsByUser (db : List Dream) (userId : String)
    (opts : QueryOptions) : QueryOutcome :=
  if ¬ (validDreamOrderFields.contains opts.orderBy ∧
        (opts.order = "asc" ∨ opts.order = "desc")) then
    .storeError "PrismaClientValidationError"
  else
    let matching := db.filter (dreamMatches userId opts)
    let sorted :=
      if opts.order = "desc" then
        sortedBy (fun a b => dreamLe opts.orderBy b a) matching
      else
        sortedBy (dreamLe opts.orderBy) matching
    .ok { dreams := (sorted.drop opts.skip).take opts.take
          total := matching.length
          hasMore := decide (opts.skip + opts.take < matching.length) }

/-! ## Statistics aggregator (`getUserStats` in services/database.js) -/

/-- Tag frequencies over a user's dreams: the raw SQL unnests every
tag and groups by tag with a count, ordered by count descending,
limited to 10.  The SQL leaves tie order unspecified; the model breaks
ties deterministically on the tag string. -/
def topTags (ds : List Dream) : List (String × Nat) :=
  let allTags := (ds.map (fun d => d.tags)).flatten
  let counted := allTags.dedup.map
    (fun t => (t, (allTags.filter (fun x => x == t)).length))
  (sortedBy (fun p q : String × Nat =>
    decide (q.2 < p.2) || (p.2 == q.2 && decide (p.1 ≤ q.1))) counted).take 10

/-- `groupBy(['mood'])` over rows with non-null mood: one count per
distinct mood value. -/
def moodCounts (ds : List Dream) : List (String × Nat) :=
  let moods := ds.filterMap (fun d => d.mood)
  moods.dedup.map (fun m => (m, (moods.filter (fun x => x == m)).length))

/-- Result record of `getUserStats`. -/
structure UserStats where
  totalDreams : Nat
  dreamsThisMonth : Nat
  favoriteDreams : Nat
  mostCommonTags : List (String × Nat)
  moodDistribution : List (String × Nat)
  averageLucidity : Option Rat
deriving Repr, DecidableEq

/-- `getUserStats(userId)`: six figures over the user's dreams.
`monthStart` abstracts `new Date(new Date().setDate(1))` (the server
clock's first day of the current month).  `_avg` over the rows with
`lucidity: { not: null }` is `null` when no such row exists, else the
arithmetic mean. -/
def getUserStats (db : List Dream) (userId : String) (monthStart : Int) :
    UserStats :=
  let userDreams := db.filter (fun d => d.userId == userId)
  let luciditySet := userDreams.filterMap (fun d => d.lucidity)
  { totalDreams := userDreams.length
    dreamsThisMonth :=
      (userDreams.filter (fun d => decide (monthStart ≤ d.createdAt))).length
    favoriteDreams := (userDreams.filter (fun d => d.isFavorite)).length
    mostCommonTags := topTags userDreams
    moodDistribution := moodCounts userDreams
    averageLucidity :=
      if luciditySet.isEmpty then none
      else some ((luciditySet.foldl (· + ·) 0 : Int) / (luciditySet.length : Rat)) }

/-! ## Dream update path (`updateDream` in services/database.js) -/

/-- A `DreamImage` row. -/
structure StoredImage where
  dreamId : String
  url : String
  scene : String
  description : String
  prompt : Option String
deriving Repr, DecidableEq

/-- One element of the `images` array supplied to an update. -/
structure ImageInput where
  url : String
  scene : String
  description : String
  prompt : Option String
deriving Repr, DecidableEq

/-- The partial-update payload: `undefined` keys are removed by the
route before the call, so every field is optional; a present field
carries the new value (itself possibly null for nullable columns). -/
structure DreamUpdates where
  title : Option (Option String)
  dreamText : Option String
  story : Option (Option String)
  storyTone : Option (Option String)
  storyLength : Option (Option String)
  tags : Option (List String)
  mood : Option (Option String)
  lucidity : Option (Option Int)
  images : Option (List ImageInput)
deriving Repr, DecidableEq

/-- Application of the scalar part of a partial update to a row. -/
def applyMainUpdates (d : Dream) (u : DreamUpdates) : Dream :=
  { d with
    title := u.title.getD d.title
    dreamText := u.dreamText.getD d.dreamText
    story := u.story.getD d.story
    storyTone := u.storyTone.getD d.storyTone
    storyLength := u.storyLength.getD d.storyLength
    tags := u.tags.getD d.tags
    mood := u.mood.getD d.mood
    lucidity := u.lucidity.getD d.lucidity }

/-- The relevant slice of the relational store. -/
structure DBState where
  dreams : List Dream
  images : List StoredImage
deriving Repr, DecidableEq

/-- Outcome of an update: the updated row, or the store error thrown
when no row matches `{ id, userId }`. -/
inductive UpdateOutcome where
  | ok (d : Dream)
  | storeError (msg : String)
deriving Repr, DecidableEq

/-- `updateDream(dreamId, userId, updates)`: when an `images` array is
supplied, `dreamImage.deleteMany({ where: { dreamId } })` runs first —
scoped only by `dreamId`, before any ownership check and outside any
transaction.  Then `dream.update({ where: { id, userId }, ... })`
updates the scalars and inserts the new images; if no row matches (the
dream is missing or owned by someone else) the update throws, but the
deletion has already happened. -/
def updateDream (st : DBState) (dreamId userId : String)
    (updates : DreamUpdates) : DBState × UpdateOutcome :=
  let st1 :=
    if updates.images.isSome then
      { st with images := st.images.filter (fun img => img.dreamId ≠ dreamId) }
    else st
  match st1.dreams.find? (fun d => d.id == dreamId && d.userId == userId) with
  | none => (st1, .storeError "P2025")
  | some d =>
    let updated := applyMainUpdates d updates
    let newImages :=
      match updates.images with
      | some imgs => imgs.map (fun im =>
          { dreamId := dreamId, url := im.url, scene := im.scene,
            description := im.description, prompt := im.prompt : StoredImage })
      | none => []
    ({ dreams := st1.dreams.map (fun x => if x.id == d.id then updated else x)
       images := st1.images ++ newImages },
     .ok updated)

/-! ## Claim theorems -/

/-- C2: the spec requires a 4xx response (other than 429) to fail
immediately as a terminal error — a 404 on the first call should make
exactly 1 outbound call and never retry.  The code disagrees with its
own comment "Don\x27t retry on client errors (4xx)": the 4xx `throw` sits
inside the `try` block, so the enclosing `catch` sleeps and retries it.
All-404 responses produce 3 outbound calls with backoff delays, and a
404 followed by a 200 even succeeds on the second call. -/
theorem C2_client_error_is_retried :
    makeAPICall (fun _ => 404) 3 = ⟨.failure 404, 3, [1000, 2000]⟩ ∧
    makeAPICall (fun i => if i = 0 then 404 else 200) 3 =
      ⟨.success 200, 2, [1000]⟩ :=
  ⟨by decide, by decide⟩

/-- C3: with `maxAttempts = 3` and successive responses 500, 500, 200
the gateway succeeds after exactly 3 outbound calls with delays
`min(1000*2^0,10000) = 1000` then `min(1000*2^1,10000) = 2000` between
them and no delay after the final attempt; and when every response is
non-2xx it makes 3 calls, sleeps the same two delays, and raises an
error carrying the last observed status. -/
theorem C3_gateway_retry_backoff :
    (∀ responses : Nat → Nat, responses 0 = 500 → responses 1 = 500 →
      responses 2 = 200 →
      makeAPICall responses 3 =
        ⟨.success 200, 3, [backoffDelay 0, backoffDelay 1]⟩) ∧
    backoffDelay 0 = 1000 ∧ backoffDelay 1 = 2000 ∧
    (∀ responses : Nat → Nat,
      (∀ i, i < 3 → responseOk (responses i) = false) →
      makeAPICall responses 3 =
        ⟨.failure (responses 2), 3, [backoffDelay 0, backoffDelay 1]⟩) := by
  refine ⟨?_, by decide, by decide, ?_⟩
  · intro responses h0 h1 h2
    simp [makeAPICall, makeAPICallLoop, h0, h1, h2, responseOk, backoffDelay]
  · intro responses h
    have hn0 := h 0 (by omega)
    have hn1 := h 1 (by omega)
    have hn2 := h 2 (by omega)
    simp [makeAPICall, makeAPICallLoop, hn0, hn1, hn2, backoffDelay]

/-- C3 witness: both parts at concrete response sequences. -/
theorem C3_gateway_retry_backoff_witness :
    makeAPICall (fun i => if i = 0 then 500 else if i = 1 then 500 else 200) 3 =
      ⟨.success 200, 3, [backoffDelay 0, backoffDelay 1]⟩ ∧
    makeAPICall (fun _ => 503) 3 =
      ⟨.failure 503, 3, [backoffDelay 0, backoffDelay 1]⟩ := by
  constructor
  · exact C3_gateway_retry_backoff.1 _ rfl rfl rfl
  · exact C3_gateway_retry_backoff.2.2.2 _ (by intro i _; decide)

/-- C1: the image fan-out always returns exactly 3 scene entries; a
scene whose provider call succeeds is never failed or suppressed by
another scene's failure (its entry keeps its URL and carries no error
flag); and when exactly one of the three provider calls fails, the
joint result has 2 entries with a non-null URL and 1 entry with
`error: true` and a null URL. -/
theorem C1_images_partial_failure :
    ∀ (story tone : List Char) (outcome : Nat → Option (List Char)),
    (generateImages story tone outcome).length = 3 ∧
    (∀ i, i < 3 → ∀ u, outcome i = some u →
      ∃ r, (generateImages story tone outcome)[i]? = some r ∧
        r.url = some u ∧ r.error = false) ∧
    (((List.range 3).filter (fun i => (outcome i).isNone)).length = 1 →
      ((generateImages story tone outcome).filter
        (fun r => r.url.isSome)).length = 2 ∧
      ((generateImages story tone outcome).filter
        (fun r => r.error)).length = 1 ∧
      (∀ r ∈ generateImages story tone outcome,
        r.error = true → r.url = none)) := by
  intro story tone outcome
  refine ⟨by simp [generateImages, buildScenes], ?_, ?_⟩
  · intro i hi u hu
    interval_cases i <;>
      simp [generateImages, buildScenes, generateSceneImage, hu]
  · intro hcount
    rw [show List.range 3 = [0, 1, 2] from by decide] at hcount
    rcases ho0 : outcome 0 with _ | u0 <;>
      rcases ho1 : outcome 1 with _ | u1 <;>
        rcases ho2 : outcome 2 with _ | u2 <;>
          simp [ho0, ho1, ho2] at hcount ⊢ <;>
            simp [generateImages, buildScenes, generateSceneImage,
              ho0, ho1, ho2]

/-- C1 witness: a concrete run where only the second provider call
fails. -/
theorem C1_images_partial_failure_witness :
    ((generateImages "A. B. C.".toList "whimsical".toList
        (fun i => if i = 1 then none else some "u".toList)).filter
      (fun r => r.url.isSome)).length = 2 ∧
    ((generateImages "A. B. C.".toList "whimsical".toList
        (fun i => if i = 1 then none else some "u".toList)).filter
      (fun r => r.error)).length = 1 ∧
    ∃ r, (generateImages "A. B. C.".toList "whimsical".toList
        (fun i => if i = 1 then none else some "u".toList))[0]? = some r ∧
      r.url = some "u".toList ∧ r.error = false := by
  have h := C1_images_partial_failure "A. B. C.".toList "whimsical".toList
    (fun i => if i = 1 then none else some "u".toList)
  have hc := h.2.2 (by decide)
  exact ⟨hc.1, hc.2.1, h.2.1 0 (by omega) "u".toList rfl⟩

/-- C6: a tone outside the fixed six-value set produces exactly the
request the whimsical tone produces (the instruction falls back to
`tonePrompts.whimsical`); an absent length selector defaults to medium
(token budget 800); and the token budget is 400 for short, 800 for
medium, 1200 for long. -/
theorem C6_story_tone_length :
    (∀ (dreamText tone : List Char) (lenOpt : Option (List Char)),
      tone ∉ ["whimsical".toList, "mystical".toList, "adventurous".toList,
        "gentle".toList, "mysterious".toList, "comedy".toList] →
      generateStoryRequest dreamText (some tone) lenOpt =
        generateStoryRequest dreamText (some "whimsical".toList) lenOpt) ∧
    (∀ (dreamText : List Char) (toneOpt : Option (List Char)),
      (generateStoryRequest dreamText toneOpt none).maxTokens = 800) ∧
    (∀ (dreamText : List Char) (toneOpt : Option (List Char)),
      (generateStoryRequest dreamText toneOpt (some "short".toList)).maxTokens
        = 400 ∧
      (generateStoryRequest dreamText toneOpt (some "medium".toList)).maxTokens
        = 800 ∧
      (generateStoryRequest dreamText toneOpt (some "long".toList)).maxTokens
        = 1200) := by
  refine ⟨?_, ?_, ?_⟩
  · intro dreamText tone lenOpt hmem
    simp only [List.mem_cons, not_or, List.not_mem_nil] at hmem
    obtain ⟨h1, h2, h3, h4, h5, h6, -⟩ := hmem
    have htp : tonePrompts tone = none := by
      unfold tonePrompts
      rw [if_neg h1, if_neg h2, if_neg h3, if_neg h4, if_neg h5, if_neg h6]
    have hti : toneInstruction tone = toneInstruction "whimsical".toList := by
      unfold toneInstruction
      rw [htp]
      rfl
    unfold generateStoryRequest
    simp only [Option.getD_some]
    rw [hti]
  · intro dreamText toneOpt
    rfl
  · intro dreamText toneOpt
    exact ⟨rfl, rfl, rfl⟩

/-- C6 witness: an unknown tone yields the whimsical request; the
defaulted and explicit length budgets at concrete inputs. -/
theorem C6_story_tone_length_witness :
    generateStoryRequest "d".toList (some "spooky".toList) none =
      generateStoryRequest "d".toList (some "whimsical".toList) none ∧
    (generateStoryRequest "d".toList none none).maxTokens = 800 ∧
    (generateStoryRequest "d".toList none (some "short".toList)).maxTokens
      = 400 ∧
    (generateStoryRequest "d".toList none (some "long".toList)).maxTokens
      = 1200 := by
  refine ⟨C6_story_tone_length.1 "d".toList "spooky".toList none (by decide),
    C6_story_tone_length.2.1 "d".toList none, ?_, ?_⟩
  · exact (C6_story_tone_length.2.2 "d".toList none).1
  · exact (C6_story_tone_length.2.2 "d".toList none).2.2

/-- C4: a story with fewer than 3 matched sentences is returned
verbatim as all three segments; with n ≥ 3 sentences (each containing
a non-whitespace non-terminal character) the beginning re-tokenizes to
exactly floor(n/3) sentences, the middle to floor(n/3), and the end to
the remaining n - 2*floor(n/3) (so 9 sentences split 3/3/3 and 10
split 3/3/4). -/
theorem C4_segment_counts :
    (∀ s : List Char, (matchSentences s).length < 3 →
      extractStorySegments s = ⟨s, s, s⟩) ∧
    (∀ s : List Char, 3 ≤ (matchSentences s).length →
      (∀ t ∈ matchSentences s, ∃ c ∈ t, isTerminal c = false ∧
        c.isWhitespace = false) →
      (matchSentences (extractStorySegments s).beginning).length =
        (matchSentences s).length / 3 ∧
      (matchSentences (extractStorySegments s).middle).length =
        (matchSentences s).length / 3 ∧
      (matchSentences (extractStorySegments s).ending).length =
        (matchSentences s).length - 2 * ((matchSentences s).length / 3)) := by
  constructor
  · intro s h
    simp only [extractStorySegments]
    rw [if_pos h]
  · intro s h3 hclean
    have hn3 : ¬ ((matchSentences s).length < 3) := Nat.not_lt.mpr h3
    have hq1 : 1 ≤ (matchSentences s).length / 3 :=
      (Nat.le_div_iff_mul_le (by omega)).mpr (by omega)
    have hq2 : (matchSentences s).length / 3 * 3 ≤ (matchSentences s).length :=
      Nat.div_mul_le_self _ 3
    have hseg : extractStorySegments s =
        ⟨trimChars (joinSpace
            ((matchSentences s).take ((matchSentences s).length / 3))),
          trimChars (joinSpace
            (((matchSentences s).drop ((matchSentences s).length / 3)).take
              ((matchSentences s).length / 3))),
          trimChars (joinSpace
            ((matchSentences s).drop ((matchSentences s).length / 3 * 2)))⟩ := by
      simp only [extractStorySegments]
      rw [if_neg hn3]
    have hwfall : ∀ t ∈ matchSentences s, wfTok t := by
      intro t ht
      exact matchSentencesAux_wf s.length s t ht
    rw [hseg]
    have hlenB : ((matchSentences s).take
        ((matchSentences s).length / 3)).length =
        (matchSentences s).length / 3 := by
      rw [List.length_take]
      exact inf_eq_left.mpr (by omega)
    have hlenM : (((matchSentences s).drop
        ((matchSentences s).length / 3)).take
        ((matchSentences s).length / 3)).length =
        (matchSentences s).length / 3 := by
      rw [List.length_take, List.length_drop]
      exact inf_eq_left.mpr (by omega)
    have hlenE : ((matchSentences s).drop
        ((matchSentences s).length / 3 * 2)).length =
        (matchSentences s).length - 2 * ((matchSentences s).length / 3) := by
      rw [List.length_drop]
      omega
    refine ⟨?_, ?_, ?_⟩
    · rw [matchSentences_join_count _
        (List.length_pos.mp (by rw [hlenB]; omega))
        (fun t ht => hwfall t (List.mem_of_mem_take ht))
        (fun t ht => hclean t (List.mem_of_mem_take ht))]
      exact hlenB
    · rw [matchSentences_join_count _
        (List.length_pos.mp (by rw [hlenM]; omega))
        (fun t ht => hwfall t (List.mem_of_mem_drop (List.mem_of_mem_take ht)))
        (fun t ht => hclean t (List.mem_of_mem_drop (List.mem_of_mem_take ht)))]
      exact hlenM
    · rw [matchSentences_join_count _
        (List.length_pos.mp (by rw [hlenE]; omega))
        (fun t ht => hwfall t (List.mem_of_mem_drop ht))
        (fun t ht => hclean t (List.mem_of_mem_drop ht))]
      exact hlenE

/-- C4 witness: a degenerate 0-sentence text, and concrete 9- and
10-sentence stories splitting 3/3/3 and 3/3/4. -/
theorem C4_segment_counts_witness :
    extractStorySegments "Hi there".toList =
      ⟨"Hi there".toList, "Hi there".toList, "Hi there".toList⟩ ∧
    ((matchSentences (extractStorySegments
        "A. B. C. D. E. F. G. H. I.".toList).beginning).length = 3 ∧
      (matchSentences (extractStorySegments
        "A. B. C. D. E. F. G. H. I.".toList).middle).length = 3 ∧
      (matchSentences (extractStorySegments
        "A. B. C. D. E. F. G. H. I.".toList).ending).length = 3) ∧
    ((matchSentences (extractStorySegments
        "A. B. C. D. E. F. G. H. I. J.".toList).beginning).length = 3 ∧
      (matchSentences (extractStorySegments
        "A. B. C. D. E. F. G. H. I. J.".toList).middle).length = 3 ∧
      (matchSentences (extractStorySegments
        "A. B. C. D. E. F. G. H. I. J.".toList).ending).length = 4) := by
  refine ⟨C4_segment_counts.1 _ (by decide), ?_, ?_⟩
  · have h := C4_segment_counts.2 "A. B. C. D. E. F. G. H. I.".toList
      (by decide) (by decide)
    have e : (matchSentences "A. B. C. D. E. F. G. H. I.".toList).length = 9 :=
      by decide
    rw [e] at h
    norm_num at h
    exact h
  · have h := C4_segment_counts.2 "A. B. C. D. E. F. G. H. I. J.".toList
      (by decide) (by decide)
    have e : (matchSentences
        "A. B. C. D. E. F. G. H. I. J.".toList).length = 10 := by decide
    rw [e] at h
    norm_num at h
    exact h

/-- C5 counterexample: the claim says a trailing fragment with no
terminal punctuation is absorbed into the segment that came before,
and that a boundary needs whitespace or end-of-text after the
punctuation.  On "A. B. C. D" the code's output equals the output on
"A. B. C." and the fragment character appears in no segment (dropped,
not absorbed); and "a.b.c.d." tokenizes to 4 sentences (so its
beginning segment is "a.", not the whole text), though no punctuation
is followed by whitespace or end-of-text except the last. -/
theorem C5_counterexample :
    (extractStorySegments "A. B. C. D".toList =
      extractStorySegments "A. B. C.".toList) ∧
    ('D' ∈ "A. B. C. D".toList) ∧
    ('D' ∉ (extractStorySegments "A. B. C. D".toList).beginning) ∧
    ('D' ∉ (extractStorySegments "A. B. C. D".toList).middle) ∧
    ('D' ∉ (extractStorySegments "A. B. C. D".toList).ending) ∧
    (matchSentences "a.b.c.d.".toList).length = 4 ∧
    (extractStorySegments "a.b.c.d.".toList).beginning = "a.".toList := by
  decide

/-- C5 (amended): the segmenter is a pure function of the text whose
sentence units are maximal nonempty runs of non-terminal characters
followed by nonempty runs of terminal punctuation — the punctuation
needs no following whitespace ("a.b." has two units); each segment is
its units joined with a single space then trimmed; and a trailing
fragment with no terminal punctuation is dropped, not absorbed:
appending one to a story with at least 3 sentences changes no
segment. -/
theorem C5_amended_segmenter :
    (∀ s frag : List Char, (∀ c ∈ frag, isTerminal c = false) →
      3 ≤ (matchSentences s).length →
      extractStorySegments (s ++ frag) = extractStorySegments s) ∧
    matchSentences "a.b.".toList = ["a.".toList, "b.".toList] := by
  constructor
  · intro s frag hfrag h3
    simp only [extractStorySegments]
    rw [matchSentences_append_frag s frag hfrag,
      if_neg (Nat.not_lt.mpr h3), if_neg (Nat.not_lt.mpr h3)]
  · decide

/-- C5 witness: appending the fragment " D" to a 3-sentence story
leaves the segmentation unchanged. -/
theorem C5_amended_segmenter_witness :
    extractStorySegments ("A. B. C.".toList ++ " D".toList) =
      extractStorySegments "A. B. C.".toList :=
  C5_amended_segmenter.1 _ _ (by decide) (by decide)

/-- C7: with `favoritesOnly = true` every dream on the returned page
has `isFavorite = true`; the returned total is the count of all
matching dreams, computed from the filter independently of the page
slice; and `hasMore` is true exactly when `skip + take < total`. -/
theorem C7_query_favorites_hasMore :
    ∀ (db : List Dream) (userId : String) (opts : QueryOptions)
      (r : QueryResult),
    opts.favoritesOnly = true →
    getDreamsByUser db userId opts = .ok r →
    (∀ d ∈ r.dreams, d.isFavorite = true) ∧
    r.total = (db.filter (dreamMatches userId opts)).length ∧
    (r.hasMore = true ↔ opts.skip + opts.take < r.total) := by
  intro db userId opts r hfav hok
  unfold getDreamsByUser at hok
  by_cases hcond : validDreamOrderFields.contains opts.orderBy = true ∧
      (opts.order = "asc" ∨ opts.order = "desc")
  case neg =>
    rw [if_pos hcond] at hok
    exact QueryOutcome.noConfusion hok
  case pos =>
    rw [if_neg (not_not_intro hcond)] at hok
    simp only [QueryOutcome.ok.injEq] at hok
    subst hok
    refine ⟨?_, rfl, by simp⟩
    intro d hd
    have hdrop := List.mem_of_mem_take hd
    have hsorted := List.mem_of_mem_drop hdrop
    have hmatch : d ∈ db.filter (dreamMatches userId opts) := by
      by_cases hord : opts.order = "desc"
      · rw [if_pos hord] at hsorted
        exact (mem_sortedBy _ _ _).mp hsorted
      · rw [if_neg hord] at hsorted
        exact (mem_sortedBy _ _ _).mp hsorted
    by_cases hfd : d.isFavorite = true
    · exact hfd
    · have hfd2 : d.isFavorite = false := by
        cases hb : d.isFavorite
        · rfl
        · exact absurd hb hfd
      have hm := (List.mem_filter.mp hmatch).2
      simp [dreamMatches, hfav, hfd2] at hm

/-- Sample rows and options used by the concrete evaluations below. -/
def dreamFav : Dream :=
  ⟨"d1", "u1", none, "t", 0, none, none, none, false, none, none,
    true, true, [], none, none, 0, 0⟩

def dreamPlain : Dream :=
  ⟨"d2", "u1", none, "t", 0, none, none, none, false, none, none,
    true, false, [], none, none, 0, 0⟩

def dreamLucid : Dream :=
  ⟨"d3", "u1", none, "t", 0, none, none, none, false, none, none,
    true, false, [], none, some 4, 0, 0⟩

def optsFav : QueryOptions :=
  ⟨0, 20, "createdAt", "desc", none, none, none, none, none, true⟩

/-- C7 witness: a favorites-only query over one favorite and one
non-favorite dream. -/
theorem C7_query_favorites_hasMore_witness :
    (∀ d ∈ ([dreamFav] : List Dream), d.isFavorite = true) ∧
    (1 : Nat) =
      (([dreamFav, dreamPlain] : List Dream).filter
        (dreamMatches "u1" optsFav)).length ∧
    (false = true ↔ optsFav.skip + optsFav.take < 1) := by
  have h := C7_query_favorites_hasMore [dreamFav, dreamPlain] "u1" optsFav
    ⟨[dreamFav], 1, false⟩ rfl (by decide)
  exact ⟨h.1, h.2.1, h.2.2⟩

/-- C8: the spec requires an unrecognized sort-field name not to raise
and to fall back to sorting by creation time descending.  The source
passes the caller-supplied field name unguarded into the store's
`orderBy`; a name that is not a column raises a query validation error
(surfaced as a 500), while the defaulted `createdAt`/`desc` succeeds. -/
theorem C8_sort_field_unguarded :
    getDreamsByUser [dreamFav] "u1"
      ⟨0, 20, "bogus", "desc", none, none, none, none, none, false⟩ =
      .storeError "PrismaClientValidationError" ∧
    getDreamsByUser [dreamFav] "u1"
      ⟨0, 20, "createdAt", "desc", none, none, none, none, none, false⟩ =
      .ok ⟨[dreamFav], 1, false⟩ := by
  decide

/-- C9: when none of the user's dreams carries a lucidity value the
aggregate's `averageLucidity` is null (not zero); when some dream does,
it is the arithmetic mean of the non-null lucidity values (a value `q`
with `q * count = sum`). -/
theorem C9_average_lucidity :
    ∀ (db : List Dream) (userId : String) (monthStart : Int),
    ((∀ d ∈ db, d.userId = userId → d.lucidity = none) →
      (getUserStats db userId monthStart).averageLucidity = none) ∧
    (∀ d ∈ db, d.userId = userId → ∀ v, d.lucidity = some v →
      ∃ q : Rat, (getUserStats db userId monthStart).averageLucidity = some q ∧
        q * (((db.filter (fun x => x.userId == userId)).filterMap
            (fun x => x.lucidity)).length : Rat) =
          ((((db.filter (fun x => x.userId == userId)).filterMap
            (fun x => x.lucidity)).foldl (· + ·) 0 : Int) : Rat)) := by
  intro db userId monthStart
  constructor
  · intro h
    have hnil : (db.filter (fun d => d.userId == userId)).filterMap
        (fun d => d.lucidity) = [] := by
      rw [List.filterMap_eq_nil_iff]
      intro d hd
      have hm := List.mem_filter.mp hd
      exact h d hm.1 (by simpa using hm.2)
    simp [getUserStats, hnil]
  · intro d hd hdu v hv
    have hmem : v ∈ (db.filter (fun x => x.userId == userId)).filterMap
        (fun x => x.lucidity) := by
      rw [List.mem_filterMap]
      exact ⟨d, List.mem_filter.mpr ⟨hd, by simp [hdu]⟩, hv⟩
    have hne : (db.filter (fun x => x.userId == userId)).filterMap
        (fun x => x.lucidity) ≠ [] := by
      intro h0
      rw [h0] at hmem
      simp at hmem
    have hlen : ((((db.filter (fun x => x.userId == userId)).filterMap
        (fun x => x.lucidity)).length : Nat) : Rat) ≠ 0 := by
      rw [Nat.cast_ne_zero]
      intro h0
      exact hne (List.length_eq_zero.mp h0)
    refine ⟨((((db.filter (fun x => x.userId == userId)).filterMap
        (fun x => x.lucidity)).foldl (· + ·) 0 : Int) : Rat) /
        ((((db.filter (fun x => x.userId == userId)).filterMap
        (fun x => x.lucidity)).length : Nat) : Rat), ?_, ?_⟩
    · simp [getUserStats, List.isEmpty_eq_false.mpr hne]
    · exact div_mul_cancel₀ _ hlen

/-- C9 witness: a user with no lucidity values gets null, and one
dream with lucidity 4 gets a mean `q` with `q * 1 = 4`. -/
theorem C9_average_lucidity_witness :
    (getUserStats [dreamPlain] "u1" 0).averageLucidity = none ∧
    ∃ q : Rat, (getUserStats [dreamLucid] "u1" 0).averageLucidity = some q ∧
      q * ((([dreamLucid].filter (fun x => x.userId == "u1")).filterMap
          (fun x => x.lucidity)).length : Rat) =
        (((([dreamLucid].filter (fun x => x.userId == "u1")).filterMap
          (fun x => x.lucidity)).foldl (· + ·) 0 : Int) : Rat) := by
  constructor
  · exact (C9_average_lucidity [dreamPlain] "u1" 0).1 (by decide)
  · exact (C9_average_lucidity [dreamLucid] "u1" 0).2 dreamLucid (by simp)
      rfl 4 rfl

/-- Sample image rows and update payload for the update-path claims. -/
def imgOld : StoredImage := ⟨"d1", "http-old", "Scene 1", "Beginning", none⟩

def updWithImages : DreamUpdates :=
  ⟨none, none, none, none, none, none, none, none,
    some [⟨"http-new", "Scene 1", "Beginning", none⟩]⟩

def stateEx : DBState := ⟨[dreamFav], [imgOld]⟩

/-- C10 counterexample: dream "d1" belongs to "u1" and has one stored
image; an update supplying a replacement image set on behalf of the
non-owner "mallory" fails — yet the previously stored image is gone
from storage. -/
theorem C10_counterexample :
    (updateDream stateEx "d1" "mallory" updWithImages).2 =
      .storeError "P2025" ∧
    stateEx.images ≠ [] ∧
    (updateDream stateEx "d1" "mallory" updWithImages).1.images = [] := by
  decide

/-- C10 (amended): the update is not atomic with respect to failure.
When a replacement image set is supplied, every stored image of that
`dreamId` is deleted before the owner-scoped row update; if the row
update then fails (missing dream or wrong owner), the resulting store
state is exactly the original with those images removed — the old
images do not survive. -/
theorem C10_amended_images_deleted :
    ∀ (st : DBState) (dreamId userId : String) (upd : DreamUpdates),
    upd.images.isSome = true →
    ∀ msg, (updateDream st dreamId userId upd).2 = .storeError msg →
    (updateDream st dreamId userId upd).1 =
      { st with images :=
          st.images.filter (fun img => img.dreamId ≠ dreamId) } := by
  intro st dreamId userId upd himg msg herr
  obtain ⟨imgs, himgs⟩ := Option.isSome_iff_exists.mp himg
  unfold updateDream at herr ⊢
  rw [if_pos himg] at herr ⊢
  simp only [himgs] at herr ⊢
  cases hfind : List.find? (fun d => d.id == dreamId && d.userId == userId)
      st.dreams with
  | none => simp [hfind]
  | some d => simp [hfind] at herr

/-- C10 witness: the amended statement at the concrete failing call. -/
theorem C10_amended_images_deleted_witness :
    (updateDream stateEx "d1" "mallory" updWithImages).1 =
      { stateEx with images :=
          stateEx.images.filter (fun img => img.dreamId ≠ "d1") } :=
  C10_amended_images_deleted stateEx "d1" "mallory" updWithImages rfl
    "P2025" (by decide)
